import Mathlib

/-!
# Verification of the smartvestor core against its specification

A shallow embedding of the repository's core computations
(`financial_person.py`, `mortgage_calculator.py`, `finance_enums.py`,
`smartvesting_house.py`) over exact arithmetic: Python floats are modelled
as rationals (`ℚ`), Python ints as `ℤ`/`ℕ`, Python `round` as
round-half-to-even, an IEEE division by zero (inf/NaN) and a failing
`assert` as `none`, and the unbounded `while` loops as fuel-indexed
recursions where `none` models a loop that has not finished within the
fuel.  The theorems below settle the specification's claims C1-C10.
-/

/-- Python's built-in `round` on a real value, yielding an integer:
round half to even (banker's rounding). -/
def pyRound (x : ℚ) : ℤ :=
  if x - ⌊x⌋ < 1/2 then ⌊x⌋
  else if x - ⌊x⌋ > 1/2 then ⌊x⌋ + 1
  else if ⌊x⌋ % 2 = 0 then ⌊x⌋ else ⌊x⌋ + 1

/-- `financial_person.FinancialPerson`: the stored attributes the core
computations read (`name` is display-only and `age` feeds only the
borrowing-limit lookups, which no claim below uses). -/
structure FinancialPerson where
  gross_salary : ℚ
  yearly_bonus : ℚ
  savings : ℚ
deriving DecidableEq

namespace FinancialPerson

/-- `FinancialPerson.net_monthly_salary`: gross minus the income-tax,
social-security and health-care deductions, plus the flat monthly tax
credit 2570.  The Python property performs no input validation. -/
def net_monthly_salary (p : FinancialPerson) : ℚ :=
  let income_tax := p.gross_salary * (15/100)
  let social_security := p.gross_salary * (65/1000)
  let health_care := p.gross_salary * (45/1000)
  let deductions := income_tax + social_security + health_care
  p.gross_salary - deductions + 2570

/-- `FinancialPerson.annual_bonus`: `(12 * gross_salary) * yearly_bonus`. -/
def annual_bonus (p : FinancialPerson) : ℚ :=
  (12 * p.gross_salary) * p.yearly_bonus

/-- `FinancialPerson.net_annual_income`: `net_monthly_salary * 12 + annual_bonus`. -/
def net_annual_income (p : FinancialPerson) : ℚ :=
  p.net_monthly_salary * 12 + p.annual_bonus

/-- `FinancialPerson.net_monthly_income`: `net_annual_income / 12`. -/
def net_monthly_income (p : FinancialPerson) : ℚ :=
  p.net_annual_income / 12

end FinancialPerson

/-- The specification's `net_monthly_salary` operation, stated from the
spec's own words for the refinement comparison of claim C8: it fails
(`InvalidInputError`, modelled `none`) when the gross salary is negative,
and otherwise returns the deduction formula. -/
def net_monthly_salary_spec (gross : ℚ) : Option ℚ :=
  if gross < 0 then none
  else some (gross - gross * (15/100 + 65/1000 + 45/1000) + 2570)

/-- One row of the table `MortgageCalculator.mortgage_breakdown` assembles:
the parallel lists `month_number`, `monthly_payment`, `principal_balance`,
`principal_payment`, `interest_payment`, `insurance_payment` at one index. -/
structure MortgageRow where
  month : ℕ
  monthlyPayment : ℚ
  principalBalance : ℚ
  principalPayment : ℚ
  interestPayment : ℚ
  insurancePayment : ℚ
deriving DecidableEq

/-- The `for month in range(1, total_payments + 1)` loop of
`MortgageCalculator.mortgage_breakdown`.  `n` is the number of loop months
still to run, `month` the current month number, `bal` the running
`remaining_balance`, `mtp` the `months_to_payoff` recorded so far (the
Python sets `months_to_payoff = month` at the top of each iteration,
before the early-payoff check).  Returns the appended rows, the final
`months_to_payoff` and the final `remaining_balance`. -/
def amortLoop (monthlyRate mpv ipv extra : ℚ) :
    ℕ → ℕ → ℚ → ℕ → List MortgageRow × ℕ × ℚ
  | 0, _month, bal, mtp => ([], mtp, bal)
  | n + 1, month, bal, _mtp =>
    if bal - extra < 0 then
      ([], month, bal + extra)
    else
      let interestPay := bal * monthlyRate
      let principalPay := mpv - ipv - interestPay + (if extra = 0 then 0 else extra)
      let newBal := bal - principalPay
      let rest := amortLoop monthlyRate mpv ipv extra n (month + 1) newBal month
      (⟨month, mpv + extra, newBal, principalPay, interestPay, ipv⟩ :: rest.1, rest.2)

/-- The outcome of `MortgageCalculator.mortgage_breakdown`: the assembled
rows (the month-0 initial entries of the parallel lists included), the
final `months_to_payoff` and the final `remaining_balance` variable. -/
structure BreakdownResult where
  rows : List MortgageRow
  monthsToPayoff : ℕ
  remainingBalance : ℚ
deriving DecidableEq

/-- `MortgageCalculator.mortgage_breakdown`, over exact rationals.  The
annuity quotient `numerator / denominator` is an IEEE division by zero
whenever `denominator = 0` (a zero monthly rate, or a term below one
month, makes the float code produce NaN/inf); that failure is modelled as
`none`.  Negative loan terms (where Python's `int()` truncation and the
floor here differ) are outside every claim's domain. -/
def mortgage_breakdown (property_price down_payment_percentage interest_rate
    loan_term monthly_extra_payment : ℚ) (with_insurance : Bool) :
    Option BreakdownResult :=
  let dpp := if down_payment_percentage > 1 then down_payment_percentage
    else down_payment_percentage * 100
  let down_payment := property_price * (dpp / 100)
  let principal := property_price - down_payment
  let total_payments : ℕ := (⌊loan_term * 12⌋).toNat
  let monthly_interest_rate := interest_rate / 12 / 100
  let numerator := principal *
    (monthly_interest_rate * (1 + monthly_interest_rate) ^ total_payments)
  let denominator := (1 + monthly_interest_rate) ^ total_payments - 1
  if denominator = 0 then none
  else
    let mpv := if with_insurance then numerator / denominator * (1088/1000)
      else numerator / denominator
    let ipv := if with_insurance then numerator / denominator * (88/1000)
      else 0
    let res := amortLoop monthly_interest_rate mpv ipv monthly_extra_payment
      total_payments 1 principal 0
    some ⟨⟨0, 0, principal, 0, 0, 0⟩ :: res.1, res.2.1, res.2.2⟩

/-- `MortgageCalculator.get_total_cost`: the last entry of the cumulative
principal + interest + insurance series, i.e. the sum of the three payment
columns over the whole table. -/
def get_total_cost (rows : List MortgageRow) : ℚ :=
  (rows.map (fun row => row.principalPayment)).sum
    + (rows.map (fun row => row.interestPayment)).sum
    + (rows.map (fun row => row.insurancePayment)).sum

/-- One month of the zero-extra-payment amortization recurrence: the
balance accrues one month of interest and pays the fixed amount `pay`
(`monthly_payment_value - insurance_payment_value` of the loop). -/
def amortStep (monthlyRate pay : ℚ) (bal : ℚ) : ℚ :=
  bal * (1 + monthlyRate) - pay

/-- `finance_enums.HouseStrategies`. -/
inductive HouseStrategies
  | mortgage
  | cash
deriving DecidableEq

/-- The dictionary `Smartvestor.define_budget` builds: one Python-rounded
amount per `finance_enums.BudgetCategories` member. -/
structure Budget where
  housing : ℤ
  groceries : ℤ
  savings_and_investments : ℤ
  leisure : ℤ
deriving DecidableEq

/-- The `Smartvestor.__budgeting` housing fraction (always `0.3`). -/
def housingFraction : ℚ := 3/10

/-- The `Smartvestor.__budgeting` groceries fraction: `0.2` for gross
salaries up to 110000, else `0.15`. -/
def groceriesFraction (p : FinancialPerson) : ℚ :=
  if p.gross_salary ≤ 110000 then 2/10 else 15/100

/-- The `Smartvestor.__budgeting` savings-and-investments fraction: `0.3`
for gross salaries up to 110000, else `0.35`. -/
def savingsFraction (p : FinancialPerson) : ℚ :=
  if p.gross_salary ≤ 110000 then 3/10 else 35/100

/-- The `Smartvestor.__budgeting` leisure fraction (always `0.2`). -/
def leisureFraction : ℚ := 2/10

/-- `Smartvestor.define_budget`: each category is Python-rounded
`fraction * net_monthly_income`; the `assert` comparing the category sum
with the rounded net monthly income is modelled as `none` when it fires. -/
def define_budget (p : FinancialPerson) : Option Budget :=
  let b : Budget :=
    ⟨pyRound (housingFraction * p.net_monthly_income),
     pyRound (groceriesFraction p * p.net_monthly_income),
     pyRound (savingsFraction p * p.net_monthly_income),
     pyRound (leisureFraction * p.net_monthly_income)⟩
  if b.housing + b.groceries + b.savings_and_investments + b.leisure
      = pyRound p.net_monthly_income then some b else none

/-- The state `Smartvestor.__init__` precomputes: the person, the budget
dictionary, and the emergency fund `3 * (housing + groceries)` over the
rounded budget amounts. -/
structure Smartvestor where
  person : FinancialPerson
  monthly_budget : Budget
  emergency_fund : ℚ
deriving DecidableEq

/-- `Smartvestor.__init__` (construction fails when the budget assert fires). -/
def mkSmartvestor (p : FinancialPerson) : Option Smartvestor :=
  (define_budget p).map fun b =>
    ⟨p, b, 3 * ((b.housing : ℚ) + (b.groceries : ℚ))⟩

/-- The `while (amount_saved < target)` accumulation loop shared by
`Smartvestor.mortgage_preparation` and `Smartvestor.cash_house`.  The
Python loop is unbounded; `none` models a loop still running after `fuel`
months. -/
def saveLoop (target monthly_saving : ℚ) : ℕ → ℚ → ℕ → Option ℕ
  | 0, amount_saved, months =>
    if amount_saved < target then none else some months
  | fuel + 1, amount_saved, months =>
    if amount_saved < target then
      saveLoop target monthly_saving fuel (amount_saved + monthly_saving) (months + 1)
    else some months

/-- `Smartvestor.mortgage_preparation`: months until the down payment
`property_price * down_payment_percentage` is saved, starting from
`savings - emergency_fund` and adding the savings-fraction of the net
monthly income each month; returns `months_to_save / 12` (true division). -/
def mortgage_preparation (sv : Smartvestor)
    (property_price down_payment_percentage : ℚ) (fuel : ℕ) : Option ℚ :=
  let down_payment := property_price * down_payment_percentage
  let amount_saved := sv.person.savings - sv.emergency_fund
  let monthly_saving := savingsFraction sv.person * sv.person.net_monthly_income
  (saveLoop down_payment monthly_saving fuel amount_saved 0).map
    fun months_to_save => (months_to_save : ℚ) / 12

/-- `Smartvestor.cash_house`: months until the full property price is
saved; the monthly saving is increased by the housing-budget leftover
`housing_fraction * income - current_rent` when that leftover is positive. -/
def cash_house (sv : Smartvestor) (current_rent property_price : ℚ)
    (fuel : ℕ) : Option ℚ :=
  let amount_saved := sv.person.savings - sv.emergency_fund
  let monthly_post_housing :=
    housingFraction * sv.person.net_monthly_income - current_rent
  let base_saving := savingsFraction sv.person * sv.person.net_monthly_income
  let monthly_saving :=
    if monthly_post_housing > 0 then base_saving + monthly_post_housing
    else base_saving
  (saveLoop property_price monthly_saving fuel amount_saved 0).map
    fun months_to_save => (months_to_save : ℚ) / 12

/-- Modelled from the spec: `Smartvestor.house_timeline` reads
`mortgage_calculator.MAXIMUM_INTEREST_RATE`, a constant the repository's
`mortgage_calculator.py` does not define; that file's only interest-rate
constant is `CURRENT_INTEREST_RATE = 6`, and the specification's loan
parameters carry one "nominal/maximum annual interest rate (percentage)". -/
def MAXIMUM_INTEREST_RATE : ℚ := 6

/-- `Smartvestor.house_timeline`, returning the `(years_to_save,
total_cost)` pair the Python computes and prints.  Modelled from the spec
where the repository's code is incomplete: the MORTGAGE branch calls the
planner's variant of `mortgage_breakdown` (keyword `max_interest_rate`,
`(schedule, principal)` result), which is absent from the repository's
`mortgage_calculator.py`; per the specification both variants run the one
canonical amortization algorithm, so the branch is modelled by
`mortgage_breakdown` at the maximum rate with no insurance and no extra
payment.  `fuel` bounds the savings loop; `none` models a loop that has
not finished or a failed breakdown.  The unsupported-strategy `ValueError`
cannot arise here: the strategy type is closed. -/
def house_timeline (sv : Smartvestor) (current_rent property_price : ℚ)
    (strategy : HouseStrategies) (fuel : ℕ) : Option (ℤ × ℤ) :=
  match strategy with
  | .mortgage =>
    (mortgage_preparation sv property_price (2/10) fuel).bind fun yrs =>
      (mortgage_breakdown property_price (2/10) MAXIMUM_INTEREST_RATE 15 0
          false).map fun res =>
        let years_to_save := pyRound yrs
        (years_to_save,
          pyRound (get_total_cost res.rows
            + current_rent * 12 * (years_to_save : ℚ)))
  | .cash =>
    (cash_house sv current_rent property_price fuel).map fun yrs =>
      let years_to_save := pyRound yrs
      (years_to_save,
        pyRound (property_price + current_rent * 12 * (years_to_save : ℚ)))

/-! ## Helper lemmas -/

/-- `getLast?` of a cons with a nonempty tail is the tail's `getLast?`. -/
theorem getLast?_cons_of_ne_nil {α : Type} (a : α) {l : List α} (h : l ≠ []) :
    (a :: l).getLast? = l.getLast? := by
  cases l with
  | nil => exact absurd rfl h
  | cons b t => exact List.getLast?_cons_cons

/-- The savings loop runs forever when the monthly contribution is not
positive while the target is unmet: no amount of fuel makes it stop. -/
theorem saveLoop_none (target saving : ℚ) (hsave : saving ≤ 0) :
    ∀ (fuel : ℕ) (amount : ℚ) (months : ℕ), amount < target →
      saveLoop target saving fuel amount months = none := by
  intro fuel
  induction fuel with
  | zero => intro amount months h; simp [saveLoop, h]
  | succ n ih =>
    intro amount months h
    rw [saveLoop, if_pos h]
    exact ih _ _ (by linarith)

/-- With fuel at least covering the gap, the savings loop finishes. -/
theorem saveLoop_some (target saving : ℚ) :
    ∀ (fuel : ℕ) (amount : ℚ) (months : ℕ),
      target ≤ amount + (fuel : ℚ) * saving →
      ∃ m, saveLoop target saving fuel amount months = some m := by
  intro fuel
  induction fuel with
  | zero =>
    intro amount months h
    have h0 : ¬ amount < target := by push_cast at h; linarith
    exact ⟨months, by rw [saveLoop, if_neg h0]⟩
  | succ n ih =>
    intro amount months h
    by_cases hc : amount < target
    · rw [saveLoop, if_pos hc]
      apply ih
      push_cast at h ⊢
      linarith
    · exact ⟨months, by rw [saveLoop, if_neg hc]⟩

/-- A positive monthly contribution makes the savings loop terminate for
some fuel. -/
theorem saveLoop_terminates (target saving amount : ℚ) (months : ℕ)
    (hs : 0 < saving) :
    ∃ (fuel : ℕ) (m : ℕ), saveLoop target saving fuel amount months = some m := by
  refine ⟨(⌈(target - amount) / saving⌉).toNat, ?_⟩
  apply saveLoop_some
  have h1 : (target - amount) / saving ≤ (((⌈(target - amount) / saving⌉).toNat : ℤ) : ℚ) := by
    calc (target - amount) / saving ≤ ((⌈(target - amount) / saving⌉ : ℤ) : ℚ) :=
          Int.le_ceil _
    _ ≤ (((⌈(target - amount) / saving⌉).toNat : ℤ) : ℚ) := by
          exact_mod_cast Int.self_le_toNat _
  rw [div_le_iff₀ hs] at h1
  push_cast at h1 ⊢
  linarith

/-! ## Claims about the income model (C7, C8) -/

/-- Claim C7: for every person with non-negative gross monthly salary and
non-negative bonus rate, `net_annual_income` equals
`12 * net_monthly_salary + 12 * gross_salary * yearly_bonus`. -/
theorem claim_c7 (p : FinancialPerson)
    (_hg : 0 ≤ p.gross_salary) (_hb : 0 ≤ p.yearly_bonus) :
    p.net_annual_income
      = 12 * p.net_monthly_salary + 12 * p.gross_salary * p.yearly_bonus := by
  simp only [FinancialPerson.net_annual_income, FinancialPerson.annual_bonus]
  ring

/-- Witness for C7 at gross salary 40000 and bonus rate 1/10. -/
theorem claim_c7_witness :
    FinancialPerson.net_annual_income ⟨40000, 1/10, 0⟩
      = 12 * FinancialPerson.net_monthly_salary ⟨40000, 1/10, 0⟩
        + 12 * 40000 * (1/10) :=
  claim_c7 ⟨40000, 1/10, 0⟩ (by norm_num) (by norm_num)

/-- Claim C8 counterexample: at gross salary −100 the code's
`net_monthly_salary` returns the formula value 2496 — it raises no
`InvalidInputError` — while the specification's operation fails there. -/
theorem claim_c8_counterexample :
    FinancialPerson.net_monthly_salary ⟨-100, 0, 0⟩ = 2496 ∧
    net_monthly_salary_spec (-100) = none := by
  constructor
  · norm_num [FinancialPerson.net_monthly_salary]
  · norm_num [net_monthly_salary_spec]

/-- Claim C8 (amended): `net_monthly_salary` performs no negativity check:
for every gross salary, negative ones included, it returns the
deduction-formula value `gross − gross × (0.15 + 0.065 + 0.045) + 2570`. -/
theorem claim_c8 (p : FinancialPerson) :
    p.net_monthly_salary
      = p.gross_salary - p.gross_salary * (15/100 + 65/1000 + 45/1000) + 2570 := by
  simp only [FinancialPerson.net_monthly_salary]
  ring

/-! ## Claim about the zero-interest loan (C3) -/

/-- Claim C3: at a zero annual interest rate the code does not special-case
the degenerate loan: the annuity denominator `(1+0)^360 - 1` is 0 and the
monthly payment is an IEEE 0/0 (modelled `none`); no
`principal/total_payments` schedule is produced. -/
theorem claim_c3 : mortgage_breakdown 1000000 20 0 30 0 false = none := by
  norm_num [mortgage_breakdown]

/-! ## Claim about the savings-horizon loops (C4) -/

/-- Claim C4: the savings loops of `mortgage_preparation` and `cash_house`
have no non-convergence guard: for the person with gross salary −10000
(whose monthly contribution is −1449 while the target is unmet) both loops
run forever whatever the fuel — no `NonConvergingPlanError` is raised —
while a positive monthly contribution always reaches the target in some
finite number of months. -/
theorem claim_c4 :
    (∀ fuel : ℕ, (mkSmartvestor ⟨-10000, 0, 0⟩).bind
        (fun sv => mortgage_preparation sv 1000000 (2/10) fuel) = none) ∧
    (∀ fuel : ℕ, (mkSmartvestor ⟨-10000, 0, 0⟩).bind
        (fun sv => cash_house sv 15000 1000000 fuel) = none) ∧
    (∀ (sv : Smartvestor) (pp dpf : ℚ),
        0 < savingsFraction sv.person * sv.person.net_monthly_income →
        ∃ (fuel : ℕ) (yrs : ℚ), mortgage_preparation sv pp dpf fuel = some yrs) ∧
    (∀ (sv : Smartvestor) (rent pp : ℚ),
        0 < savingsFraction sv.person * sv.person.net_monthly_income →
        ∃ (fuel : ℕ) (yrs : ℚ), cash_house sv rent pp fuel = some yrs) := by
  have hmk : mkSmartvestor ⟨-10000, 0, 0⟩
      = some ⟨⟨-10000, 0, 0⟩, ⟨-1449, -966, -1449, -966⟩, -7245⟩ := by
    norm_num [mkSmartvestor, define_budget, pyRound, housingFraction,
      groceriesFraction, savingsFraction, leisureFraction,
      FinancialPerson.net_monthly_income, FinancialPerson.net_annual_income,
      FinancialPerson.net_monthly_salary, FinancialPerson.annual_bonus]
  refine ⟨?_, ?_, ?_, ?_⟩
  · intro fuel
    rw [hmk]
    show mortgage_preparation ⟨⟨-10000, 0, 0⟩, ⟨-1449, -966, -1449, -966⟩, -7245⟩
      1000000 (2/10) fuel = none
    simp only [mortgage_preparation]
    norm_num [savingsFraction, FinancialPerson.net_monthly_income,
      FinancialPerson.net_annual_income, FinancialPerson.net_monthly_salary,
      FinancialPerson.annual_bonus]
    rw [saveLoop_none 200000 (-1449) (by norm_num) fuel 7245 0 (by norm_num)]
    exact fun a ha => Option.noConfusion ha
  · intro fuel
    rw [hmk]
    show cash_house ⟨⟨-10000, 0, 0⟩, ⟨-1449, -966, -1449, -966⟩, -7245⟩
      15000 1000000 fuel = none
    simp only [cash_house]
    norm_num [savingsFraction, housingFraction, FinancialPerson.net_monthly_income,
      FinancialPerson.net_annual_income, FinancialPerson.net_monthly_salary,
      FinancialPerson.annual_bonus]
    rw [saveLoop_none 1000000 (-1449) (by norm_num) fuel 7245 0 (by norm_num)]
    exact fun a ha => Option.noConfusion ha
  · intro sv pp dpf hpos
    obtain ⟨fuel, m, hm⟩ := saveLoop_terminates (pp * dpf)
      (savingsFraction sv.person * sv.person.net_monthly_income)
      (sv.person.savings - sv.emergency_fund) 0 hpos
    refine ⟨fuel, (m : ℚ) / 12, ?_⟩
    simp only [mortgage_preparation]
    rw [hm]
    rfl
  · intro sv rent pp hpos
    by_cases hpost : housingFraction * sv.person.net_monthly_income - rent > 0
    · obtain ⟨fuel, m, hm⟩ := saveLoop_terminates pp
        (savingsFraction sv.person * sv.person.net_monthly_income
          + (housingFraction * sv.person.net_monthly_income - rent))
        (sv.person.savings - sv.emergency_fund) 0 (by linarith)
      refine ⟨fuel, (m : ℚ) / 12, ?_⟩
      simp only [cash_house]
      rw [if_pos hpost, hm]
      rfl
    · obtain ⟨fuel, m, hm⟩ := saveLoop_terminates pp
        (savingsFraction sv.person * sv.person.net_monthly_income)
        (sv.person.savings - sv.emergency_fund) 0 hpos
      refine ⟨fuel, (m : ℚ) / 12, ?_⟩
      simp only [cash_house]
      rw [if_neg hpost, hm]
      rfl

/-! ## Claims about the budget (C5) -/

/-- Claim C5 counterexample: at gross salary 750/37 (≈ 20.3 — inside
[0, 10000000]) the net monthly income is 2585 and the rounded category
amounts are 776 + 517 + 776 + 517 = 2586 ≠ 2585, so the rounded sum
differs from the rounded net income and `define_budget` dies on its
assert instead of returning a budget. -/
theorem claim_c5_counterexample :
    define_budget ⟨750/37, 0, 0⟩ = none ∧
    pyRound (housingFraction * FinancialPerson.net_monthly_income ⟨750/37, 0, 0⟩)
        + pyRound (groceriesFraction ⟨750/37, 0, 0⟩
            * FinancialPerson.net_monthly_income ⟨750/37, 0, 0⟩)
        + pyRound (savingsFraction ⟨750/37, 0, 0⟩
            * FinancialPerson.net_monthly_income ⟨750/37, 0, 0⟩)
        + pyRound (leisureFraction * FinancialPerson.net_monthly_income ⟨750/37, 0, 0⟩)
      ≠ pyRound (FinancialPerson.net_monthly_income ⟨750/37, 0, 0⟩) := by
  constructor
  · norm_num [define_budget, pyRound, housingFraction, groceriesFraction,
      savingsFraction, leisureFraction, FinancialPerson.net_monthly_income,
      FinancialPerson.net_annual_income, FinancialPerson.net_monthly_salary,
      FinancialPerson.annual_bonus]
  · norm_num [pyRound, housingFraction, groceriesFraction, savingsFraction,
      leisureFraction, FinancialPerson.net_monthly_income,
      FinancialPerson.net_annual_income, FinancialPerson.net_monthly_salary,
      FinancialPerson.annual_bonus]

/-- Claim C5 (amended): whenever `define_budget` returns a budget, its four
rounded category amounts sum exactly to the rounded net monthly income;
for some gross salaries in [0, 10000000] the rounded sum drifts, and there
the operation fails its assert instead of returning (counterexample at
gross 750/37). -/
theorem claim_c5 (p : FinancialPerson) (b : Budget)
    (h : define_budget p = some b) :
    b.housing + b.groceries + b.savings_and_investments + b.leisure
      = pyRound p.net_monthly_income := by
  simp only [define_budget] at h
  split at h
  next hc =>
    cases h
    exact hc
  next => exact Option.noConfusion h

/-- Witness for C5's amended theorem at gross salary 40000 (net monthly
income 32170; categories 9651 + 6434 + 9651 + 6434 = 32170). -/
theorem claim_c5_witness :
    (9651 : ℤ) + 6434 + 9651 + 6434
      = pyRound (FinancialPerson.net_monthly_income ⟨40000, 0, 0⟩) :=
  claim_c5 ⟨40000, 0, 0⟩ ⟨9651, 6434, 9651, 6434⟩ (by
    norm_num [define_budget, pyRound, housingFraction, groceriesFraction,
      savingsFraction, leisureFraction, FinancialPerson.net_monthly_income,
      FinancialPerson.net_annual_income, FinancialPerson.net_monthly_salary,
      FinancialPerson.annual_bonus])

/-! ## Structure of the amortization loop -/

/-- Unfolding equation: a loop month that hits the early-payoff break. -/
theorem amortLoop_succ_break (r mpv ipv extra : ℚ) (n month : ℕ) (bal : ℚ)
    (mtp : ℕ) (h : bal - extra < 0) :
    amortLoop r mpv ipv extra (n + 1) month bal mtp = ([], month, bal + extra) := by
  rw [amortLoop, if_pos h]

/-- Unfolding equation: a loop month that emits a row. -/
theorem amortLoop_succ_step (r mpv ipv extra : ℚ) (n month : ℕ) (bal : ℚ)
    (mtp : ℕ) (h : ¬ bal - extra < 0) :
    amortLoop r mpv ipv extra (n + 1) month bal mtp =
      ((⟨month, mpv + extra,
          bal - (mpv - ipv - bal * r + (if extra = 0 then 0 else extra)),
          mpv - ipv - bal * r + (if extra = 0 then 0 else extra),
          bal * r, ipv⟩ : MortgageRow) ::
        (amortLoop r mpv ipv extra n (month + 1)
          (bal - (mpv - ipv - bal * r + (if extra = 0 then 0 else extra))) month).1,
       (amortLoop r mpv ipv extra n (month + 1)
          (bal - (mpv - ipv - bal * r + (if extra = 0 then 0 else extra))) month).2) := by
  rw [amortLoop, if_neg h]

/-- Every row the amortization loop emits satisfies
`principal + interest + insurance = recorded monthly payment`. -/
theorem amortLoop_row_sum (r mpv ipv extra : ℚ) :
    ∀ (n month : ℕ) (bal : ℚ) (mtp : ℕ) (row : MortgageRow),
      row ∈ (amortLoop r mpv ipv extra n month bal mtp).1 →
      row.principalPayment + row.interestPayment + row.insurancePayment
        = row.monthlyPayment := by
  intro n
  induction n with
  | zero => intro month bal mtp row h; simp [amortLoop] at h
  | succ n ih =>
    intro month bal mtp row h
    by_cases hbr : bal - extra < 0
    · rw [amortLoop_succ_break r mpv ipv extra n month bal mtp hbr] at h
      simp at h
    · rw [amortLoop_succ_step r mpv ipv extra n month bal mtp hbr] at h
      simp only [List.mem_cons] at h
      rcases h with h | h
      · subst h
        dsimp only
        by_cases he : extra = 0
        · rw [if_pos he, he]; ring
        · rw [if_neg he]; ring
      · exact ih _ _ _ _ h

/-- The loop emits at most as many rows as it has months of fuel. -/
theorem amortLoop_length_le (r mpv ipv extra : ℚ) :
    ∀ (n month : ℕ) (bal : ℚ) (mtp : ℕ),
      (amortLoop r mpv ipv extra n month bal mtp).1.length ≤ n := by
  intro n
  induction n with
  | zero => intro month bal mtp; simp [amortLoop]
  | succ n ih =>
    intro month bal mtp
    by_cases hbr : bal - extra < 0
    · rw [amortLoop_succ_break r mpv ipv extra n month bal mtp hbr]
      simp
    · rw [amortLoop_succ_step r mpv ipv extra n month bal mtp hbr]
      simpa using Nat.succ_le_succ (ih _ _ _)

/-- The month indices the loop emits are consecutive from the current month. -/
theorem amortLoop_months (r mpv ipv extra : ℚ) :
    ∀ (n month : ℕ) (bal : ℚ) (mtp : ℕ),
      (amortLoop r mpv ipv extra n month bal mtp).1.map (fun row => row.month)
        = List.range' month (amortLoop r mpv ipv extra n month bal mtp).1.length := by
  intro n
  induction n with
  | zero => intro month bal mtp; simp [amortLoop]
  | succ n ih =>
    intro month bal mtp
    by_cases hbr : bal - extra < 0
    · rw [amortLoop_succ_break r mpv ipv extra n month bal mtp hbr]
      simp
    · rw [amortLoop_succ_step r mpv ipv extra n month bal mtp hbr]
      simp only [List.map_cons, List.length_cons, List.range'_succ]
      exact congrArg (fun l => month :: l) (ih _ _ _)

/-- When the loop exits through the early-payoff break, the final
`months_to_payoff` exceeds the emitted-row count by exactly the current
month; in that event the balance recorded in the last emitted row (the
incoming balance, when nothing was emitted) is strictly below the monthly
extra payment. -/
theorem amortLoop_break (r mpv ipv extra : ℚ) :
    ∀ (n month : ℕ) (bal : ℚ) (mtp : ℕ), mtp < month →
      (amortLoop r mpv ipv extra n month bal mtp).2.1
        = month + (amortLoop r mpv ipv extra n month bal mtp).1.length →
      (((amortLoop r mpv ipv extra n month bal mtp).1.getLast?.map
          (fun row => row.principalBalance)).getD bal) < extra := by
  intro n
  induction n with
  | zero =>
    intro month bal mtp hlt heq
    rw [amortLoop] at heq
    simp at heq
    omega
  | succ n ih =>
    intro month bal mtp hlt heq
    by_cases hbr : bal - extra < 0
    · rw [amortLoop_succ_break r mpv ipv extra n month bal mtp hbr]
      simpa using by linarith
    · rw [amortLoop_succ_step r mpv ipv extra n month bal mtp hbr] at heq ⊢
      simp only [List.length_cons] at heq
      have hih := ih (month + 1)
        (bal - (mpv - ipv - bal * r + (if extra = 0 then 0 else extra))) month
        (Nat.lt_succ_self month) (by omega)
      cases hrest : (amortLoop r mpv ipv extra n (month + 1)
          (bal - (mpv - ipv - bal * r + (if extra = 0 then 0 else extra))) month).1 with
      | nil =>
        rw [hrest] at hih
        simp only [hrest]
        simpa using hih
      | cons b t =>
        rw [hrest] at hih
        simp only [hrest]
        rw [getLast?_cons_of_ne_nil _ (List.cons_ne_nil b t)]
        obtain ⟨l, hl⟩ := Option.isSome_iff_exists.mp
          (List.getLast?_isSome.mpr (List.cons_ne_nil b t))
        rw [hl] at hih ⊢
        simpa using by simpa using hih

/-- The early-payoff conclusion lifted to the full table (month-0 entry
included): when the final `months_to_payoff` equals the payment-row count
plus one, the schedule broke early and the last table row's balance is
below the extra payment. -/
theorem amortLoop_sentinel_last (r mpv ipv extra : ℚ) (n : ℕ) (P : ℚ)
    (h : (amortLoop r mpv ipv extra n 1 P 0).2.1
      = (amortLoop r mpv ipv extra n 1 P 0).1.length + 1) :
    ∀ b, ((⟨0, 0, P, 0, 0, 0⟩ : MortgageRow)
        :: (amortLoop r mpv ipv extra n 1 P 0).1).getLast?.map
        (fun row => row.principalBalance) = some b → b < extra := by
  intro b hb
  have hbreak := amortLoop_break r mpv ipv extra n 1 P 0 Nat.one_pos (by omega)
  cases hrest : (amortLoop r mpv ipv extra n 1 P 0).1 with
  | nil =>
    rw [hrest] at hbreak
    rw [hrest] at hb
    simp only [List.getLast?_singleton, Option.map_some] at hb
    cases hb
    simpa using hbreak
  | cons c t =>
    rw [hrest] at hbreak
    rw [hrest, getLast?_cons_of_ne_nil _ (List.cons_ne_nil c t)] at hb
    rw [hb] at hbreak
    simpa using hbreak


/-! ## Claims C9, C10, C2 about the emitted schedule -/

/-- Claim C9: in every row of every schedule `mortgage_breakdown` produces,
`principal_payment + interest_payment + insurance_payment` is at most the
row's recorded monthly payment, with equality when no extra monthly
payment is configured (the code in fact gives equality always: the
recorded payment includes the extra payment). -/
theorem claim_c9 (price dpp rate term extra : ℚ) (ins : Bool)
    (res : BreakdownResult)
    (h : mortgage_breakdown price dpp rate term extra ins = some res)
    (row : MortgageRow) (hrow : row ∈ res.rows) :
    row.principalPayment + row.interestPayment + row.insurancePayment
      ≤ row.monthlyPayment ∧
    (extra = 0 → row.principalPayment + row.interestPayment + row.insurancePayment
      = row.monthlyPayment) := by
  simp only [mortgage_breakdown] at h
  split at h
  · exact Option.noConfusion h
  · cases h
    simp only [List.mem_cons] at hrow
    rcases hrow with hrow | hrow
    · subst hrow
      exact ⟨by norm_num, fun _ => by norm_num⟩
    · have hsum := amortLoop_row_sum _ _ _ _ _ _ _ _ _ hrow
      exact ⟨le_of_eq hsum, fun _ => hsum⟩

/-- Witness for C9: the month-1 row of the one-month 6% loan on principal
1000 pays 1000 principal + 5 interest + 0 insurance = 1005, its payment. -/
theorem claim_c9_witness :
    (⟨1, 1005, 0, 1000, 5, 0⟩ : MortgageRow).principalPayment
        + (⟨1, 1005, 0, 1000, 5, 0⟩ : MortgageRow).interestPayment
        + (⟨1, 1005, 0, 1000, 5, 0⟩ : MortgageRow).insurancePayment
      = (⟨1, 1005, 0, 1000, 5, 0⟩ : MortgageRow).monthlyPayment :=
  (claim_c9 1250 20 6 (1/12) 0 false
    ⟨[⟨0, 0, 1000, 0, 0, 0⟩, ⟨1, 1005, 0, 1000, 5, 0⟩], 1, 0⟩
    (by norm_num [mortgage_breakdown, amortLoop])
    ⟨1, 1005, 0, 1000, 5, 0⟩ (by simp)).2 rfl

/-- Claim C10 counterexample: the one-month 6% loan's table begins with a
month-0 entry — its month column is `[0, 1]`, not a 1-based sequence. -/
theorem claim_c10_counterexample :
    (mortgage_breakdown 1250 20 6 (1/12) 0 false).map
        (fun res => res.rows.map (fun row => row.month)) = some [0, 1] := by
  norm_num [mortgage_breakdown, amortLoop]

/-- Claim C10 (amended): every schedule `mortgage_breakdown` produces is an
ordered sequence whose month indices are the consecutive integers
0, 1, 2, …: a month-0 initial entry recording the starting balance,
followed by one row per computed month until payoff or term exhaustion. -/
theorem claim_c10 (price dpp rate term extra : ℚ) (ins : Bool)
    (res : BreakdownResult)
    (h : mortgage_breakdown price dpp rate term extra ins = some res) :
    res.rows.map (fun row => row.month) = List.range res.rows.length := by
  simp only [mortgage_breakdown] at h
  split at h
  · exact Option.noConfusion h
  · cases h
    simp only [List.map_cons, List.length_cons, List.range_eq_range',
      List.range'_succ]
    exact congrArg (fun l => 0 :: l) (amortLoop_months _ _ _ _ _ _ _ _)

/-- Witness for C10's amended theorem on the one-month 6% loan. -/
theorem claim_c10_witness :
    (⟨[⟨0, 0, 1000, 0, 0, 0⟩, ⟨1, 1005, 0, 1000, 5, 0⟩], 1, 0⟩
        : BreakdownResult).rows.map (fun row => row.month)
      = List.range (⟨[⟨0, 0, 1000, 0, 0, 0⟩, ⟨1, 1005, 0, 1000, 5, 0⟩], 1, 0⟩
        : BreakdownResult).rows.length :=
  claim_c10 1250 20 6 (1/12) 0 false
    ⟨[⟨0, 0, 1000, 0, 0, 0⟩, ⟨1, 1005, 0, 1000, 5, 0⟩], 1, 0⟩
    (by norm_num [mortgage_breakdown, amortLoop])

/-- Claim C2 counterexample: principal 1000 at 6% over one year with a
monthly extra payment of 1 runs the full 12 months (13 table rows) and the
balance recorded in the last emitted row is negative (≈ −12.34), violating
the claimed `remaining balance ≥ 0` (and the full-term `≈ 0`). -/
theorem claim_c2_counterexample :
    ((mortgage_breakdown 1250 20 6 1 1 false).bind
        (fun res => res.rows.getLast?.map (fun row => row.principalBalance))).getD 1
      < 0 ∧
    (mortgage_breakdown 1250 20 6 1 1 false).map (fun res => res.rows.length)
      = some 13 := by
  norm_num [mortgage_breakdown, amortLoop, show Int.toNat 12 = 12 from rfl]

/-- Claim C2 (amended): with a positive monthly extra payment the schedule
holds at most `total_payments` payment rows (plus the month-0 entry), and
whenever the loop exits through its early-payoff break (`months_to_payoff`
equals the row count) the balance recorded in the last emitted row is
strictly below one month's extra payment; that balance may however be
negative, and in a full-term exit it need not be near 0 (counterexample). -/
theorem claim_c2 (price dpp rate term extra : ℚ) (ins : Bool)
    (_hextra : 0 < extra) (res : BreakdownResult)
    (h : mortgage_breakdown price dpp rate term extra ins = some res) :
    res.rows.length ≤ (⌊term * 12⌋).toNat + 1 ∧
    (res.monthsToPayoff = res.rows.length →
      ∀ b, res.rows.getLast?.map (fun row => row.principalBalance) = some b →
        b < extra) := by
  simp only [mortgage_breakdown] at h
  split at h
  · exact Option.noConfusion h
  · cases h
    constructor
    · simpa using Nat.succ_le_succ (amortLoop_length_le _ _ _ _ _ _ _ _)
    · intro hearly b hb
      simp only [List.length_cons] at hearly
      exact amortLoop_sentinel_last _ _ _ _ _ _ hearly b hb

/-! ## The full-term schedule (C1) -/

/-- Closed form of the iterated amortization recurrence at the annuity
payment: after `k` payments the balance is
`P * (q^N - q^k) / (q^N - 1)` with `q = 1 + r`. -/
theorem amortStep_iterate_closed (r P M : ℚ) (N : ℕ)
    (hden : (1 + r) ^ N - 1 ≠ 0)
    (hM : M = P * (r * (1 + r) ^ N) / ((1 + r) ^ N - 1)) :
    ∀ k : ℕ, (amortStep r M)^[k] P
      = P * ((1 + r) ^ N - (1 + r) ^ k) / ((1 + r) ^ N - 1) := by
  intro k
  induction k with
  | zero =>
    rw [Function.iterate_zero_apply, pow_zero, mul_div_assoc, div_self hden,
      mul_one]
  | succ k ih =>
    rw [Function.iterate_succ_apply', ih, amortStep, hM]
    field_simp
    ring

/-- Between months 0 and `N` the closed-form balance is non-negative (and
it is exactly 0 at month `N`). -/
theorem amortBal_nonneg (r P : ℚ) (N k : ℕ) (hr : 0 < r) (hP : 0 ≤ P)
    (hN : N ≠ 0) (hk : k ≤ N) :
    0 ≤ P * ((1 + r) ^ N - (1 + r) ^ k) / ((1 + r) ^ N - 1) := by
  have hq : (1:ℚ) < 1 + r := by linarith
  have h1 : (1 + r) ^ k ≤ (1 + r) ^ N := pow_le_pow_right₀ (le_of_lt hq) hk
  have h2 : (1:ℚ) < (1 + r) ^ N := one_lt_pow₀ hq hN
  apply div_nonneg
  · exact mul_nonneg hP (by linarith)
  · linarith

/-- When the break never fires (the iterated balance stays non-negative),
the zero-extra-payment loop runs all `n` months: the row count is `n`, the
final balance is the `n`-fold iterate, `months_to_payoff` advances to the
last processed month, and the last emitted row records the final balance. -/
theorem amortLoop_noBreak (r mpv ipv : ℚ) :
    ∀ (n month : ℕ) (bal : ℚ) (mtp : ℕ),
      (∀ k, k < n → 0 ≤ (amortStep r (mpv - ipv))^[k] bal) →
      (amortLoop r mpv ipv 0 n month bal mtp).1.length = n ∧
      (amortLoop r mpv ipv 0 n month bal mtp).2.2
        = (amortStep r (mpv - ipv))^[n] bal ∧
      (amortLoop r mpv ipv 0 n month bal mtp).2.1
        = (if n = 0 then mtp else month + (n - 1)) ∧
      (n ≠ 0 → ((amortLoop r mpv ipv 0 n month bal mtp).1.getLast?.map
          (fun row => row.principalBalance))
        = some ((amortStep r (mpv - ipv))^[n] bal)) := by
  intro n
  induction n with
  | zero => intro month bal mtp hpos; simp [amortLoop]
  | succ n ih =>
    intro month bal mtp hpos
    have h0 : 0 ≤ bal := by simpa using hpos 0 (Nat.succ_pos n)
    have hnb : ¬ bal - 0 < 0 := by simpa using not_lt.mpr h0
    have hnew : bal - (mpv - ipv - bal * r + (if (0:ℚ) = 0 then (0:ℚ) else 0))
        = amortStep r (mpv - ipv) bal := by
      rw [if_pos rfl, amortStep]; ring
    rw [amortLoop_succ_step r mpv ipv 0 n month bal mtp hnb]
    rw [hnew]
    have hshift : ∀ k, k < n → 0 ≤ (amortStep r (mpv - ipv))^[k]
        (amortStep r (mpv - ipv) bal) := by
      intro k hk
      have := hpos (k + 1) (Nat.succ_lt_succ hk)
      rwa [Function.iterate_succ_apply] at this
    obtain ⟨ihlen, ihbal, ihmtp, ihlast⟩ :=
      ih (month + 1) (amortStep r (mpv - ipv) bal) month hshift
    refine ⟨?_, ?_, ?_, ?_⟩
    · simpa using ihlen
    · rw [show ((⟨month, mpv + 0,
          amortStep r (mpv - ipv) bal,
          mpv - ipv - bal * r + (if (0:ℚ) = 0 then (0:ℚ) else 0),
          bal * r, ipv⟩ : MortgageRow) ::
            (amortLoop r mpv ipv 0 n (month + 1)
              (amortStep r (mpv - ipv) bal) month).1,
          (amortLoop r mpv ipv 0 n (month + 1)
            (amortStep r (mpv - ipv) bal) month).2).2.2
        = (amortLoop r mpv ipv 0 n (month + 1)
            (amortStep r (mpv - ipv) bal) month).2.2 from rfl]
      rw [ihbal, ← Function.iterate_succ_apply]
    · rcases Nat.eq_zero_or_pos n with hn | hn
      · subst hn
        simpa using ihmtp
      · have : ¬ n = 0 := by omega
        simp only [ihmtp, if_neg this]
        have : ¬ n + 1 = 0 := by omega
        rw [if_neg this]
        omega
    · intro _
      rcases Nat.eq_zero_or_pos n with hn | hn
      · subst hn
        simp [amortLoop, Function.iterate_succ_apply]
      · have hne : (amortLoop r mpv ipv 0 n (month + 1)
            (amortStep r (mpv - ipv) bal) month).1 ≠ [] := by
          rw [← List.length_pos, ihlen]; exact hn
        show ((_ : MortgageRow) :: (amortLoop r mpv ipv 0 n (month + 1)
            (amortStep r (mpv - ipv) bal) month).1).getLast?.map
            (fun row => row.principalBalance)
          = some ((amortStep r (mpv - ipv))^[n + 1] bal)
        rw [getLast?_cons_of_ne_nil _ hne, ihlast (by omega),
          ← Function.iterate_succ_apply]

/-- Claim C1: for every loan with positive property price, a valid
(normalized ≤ 100%) down payment, positive annual interest rate, a
positive whole number of years, zero extra payment and no insurance, the
breakdown iterates the recurrence for the full `total_payments = 12 * y`
months (that many payment rows, `months_to_payoff = 12 * y`) and the
remaining balance recorded in the final emitted row is exactly 0 in exact
arithmetic (hence within any floating-point epsilon of 0). -/
theorem claim_c1 (price dpp rate : ℚ) (y : ℕ)
    (hprice : 0 < price) (hdpp0 : 0 ≤ dpp) (hdpp1 : dpp ≤ 100)
    (hrate : 0 < rate) (hy : 1 ≤ y) :
    (mortgage_breakdown price dpp rate (y : ℚ) 0 false).map
        (fun res => res.rows.length) = some (12 * y + 1) ∧
    (mortgage_breakdown price dpp rate (y : ℚ) 0 false).map
        (fun res => res.monthsToPayoff) = some (12 * y) ∧
    (mortgage_breakdown price dpp rate (y : ℚ) 0 false).map
        (fun res => res.remainingBalance) = some 0 ∧
    (mortgage_breakdown price dpp rate (y : ℚ) 0 false).map
        (fun res => res.rows.getLast?.map (fun row => row.principalBalance))
      = some (some 0) := by
  have hN : ((⌊(y : ℚ) * 12⌋).toNat) = 12 * y := by
    have h12 : ((y : ℚ)) * 12 = ((12 * y : ℕ) : ℚ) := by push_cast; ring
    rw [h12, Int.floor_natCast, Int.toNat_natCast]
  have hr0 : 0 < rate / 12 / 100 := by positivity
  have hq1 : (1 : ℚ) < 1 + rate / 12 / 100 := by linarith
  have hNne : 12 * y ≠ 0 := by omega
  have hden_pos : 0 < (1 + rate / 12 / 100) ^ (12 * y) - 1 := by
    have := one_lt_pow₀ hq1 hNne
    linarith
  have hden : (1 + rate / 12 / 100) ^ (12 * y) - 1 ≠ 0 := ne_of_gt hden_pos
  have hdppN : (if dpp > 1 then dpp else dpp * 100) ≤ 100 := by
    split
    · exact hdpp1
    next h => nlinarith [not_lt.mp h]
  have hdppN0 : 0 ≤ (if dpp > 1 then dpp else dpp * 100) := by
    split
    · linarith
    · linarith
  have hP0 : 0 ≤ price - price * ((if dpp > 1 then dpp else dpp * 100) / 100) := by
    have h1 : (if dpp > 1 then dpp else dpp * 100) / 100 ≤ 1 := by
      rw [div_le_one (by norm_num : (0:ℚ) < 100)]
      exact hdppN
    nlinarith [mul_le_mul_of_nonneg_left h1 (le_of_lt hprice)]
  have hcf := amortStep_iterate_closed (rate / 12 / 100)
    (price - price * ((if dpp > 1 then dpp else dpp * 100) / 100))
    ((price - price * ((if dpp > 1 then dpp else dpp * 100) / 100)) *
        (rate / 12 / 100 * (1 + rate / 12 / 100) ^ (12 * y)) /
        ((1 + rate / 12 / 100) ^ (12 * y) - 1) - 0)
    (12 * y) hden (by rw [sub_zero])
  have hpos : ∀ k, k < 12 * y →
      0 ≤ (amortStep (rate / 12 / 100)
        ((price - price * ((if dpp > 1 then dpp else dpp * 100) / 100)) *
            (rate / 12 / 100 * (1 + rate / 12 / 100) ^ (12 * y)) /
            ((1 + rate / 12 / 100) ^ (12 * y) - 1) - 0))^[k]
        (price - price * ((if dpp > 1 then dpp else dpp * 100) / 100)) := by
    intro k hk
    rw [hcf k]
    exact amortBal_nonneg _ _ _ _ hr0 hP0 hNne (le_of_lt hk)
  obtain ⟨hlen, hbal, hmtp, hlast⟩ := amortLoop_noBreak (rate / 12 / 100)
    ((price - price * ((if dpp > 1 then dpp else dpp * 100) / 100)) *
        (rate / 12 / 100 * (1 + rate / 12 / 100) ^ (12 * y)) /
        ((1 + rate / 12 / 100) ^ (12 * y) - 1))
    0 (12 * y) 1
    (price - price * ((if dpp > 1 then dpp else dpp * 100) / 100)) 0 hpos
  have hzero : (amortStep (rate / 12 / 100)
      ((price - price * ((if dpp > 1 then dpp else dpp * 100) / 100)) *
          (rate / 12 / 100 * (1 + rate / 12 / 100) ^ (12 * y)) /
          ((1 + rate / 12 / 100) ^ (12 * y) - 1) - 0))^[12 * y]
      (price - price * ((if dpp > 1 then dpp else dpp * 100) / 100)) = 0 := by
    rw [hcf (12 * y), sub_self, mul_zero, zero_div]
  simp only [mortgage_breakdown, hN, if_neg hden, Bool.false_eq_true, if_false,
    Option.map_some']
  have hne : (amortLoop (rate / 12 / 100)
      ((price - price * ((if dpp > 1 then dpp else dpp * 100) / 100)) *
          (rate / 12 / 100 * (1 + rate / 12 / 100) ^ (12 * y)) /
          ((1 + rate / 12 / 100) ^ (12 * y) - 1))
      0 0 (12 * y) 1
      (price - price * ((if dpp > 1 then dpp else dpp * 100) / 100)) 0).1 ≠ [] := by
    rw [← List.length_pos, hlen]
    omega
  refine ⟨?_, ?_, ?_, ?_⟩
  · simp only [List.length_cons, hlen]
  · simp only [hmtp, if_neg hNne]
    congr 1
    omega
  · simp only [hbal]
    rw [hzero] at hbal ⊢
  · simp only [getLast?_cons_of_ne_nil _ hne]
    rw [hlast hNne, hzero]

/-- Witness for C1 on a one-year 6% loan at price 1250 with 20% down. -/
theorem claim_c1_witness :
    (mortgage_breakdown 1250 20 6 ((1 : ℕ) : ℚ) 0 false).map
        (fun res => res.rows.length) = some (12 * 1 + 1) ∧
    (mortgage_breakdown 1250 20 6 ((1 : ℕ) : ℚ) 0 false).map
        (fun res => res.monthsToPayoff) = some (12 * 1) ∧
    (mortgage_breakdown 1250 20 6 ((1 : ℕ) : ℚ) 0 false).map
        (fun res => res.remainingBalance) = some 0 ∧
    (mortgage_breakdown 1250 20 6 ((1 : ℕ) : ℚ) 0 false).map
        (fun res => res.rows.getLast?.map (fun row => row.principalBalance))
      = some (some 0) :=
  claim_c1 1250 20 6 1 (by norm_num) (by norm_num) (by norm_num) (by norm_num)
    (le_refl 1)

/-- Witness for C2 on an immediate early payoff: principal 1000, one year
at 6%, extra payment 2000; the loop breaks at month 1, the table is the
single month-0 row, and its balance 1000 is below the extra payment. -/
theorem claim_c2_witness :
    (⟨[⟨0, 0, 1000, 0, 0, 0⟩], 1, 3000⟩ : BreakdownResult).rows.length
        ≤ (⌊(1 : ℚ) * 12⌋).toNat + 1 ∧
    (1000 : ℚ) < 2000 :=
  ⟨(claim_c2 1250 20 6 1 2000 false (by norm_num)
      ⟨[⟨0, 0, 1000, 0, 0, 0⟩], 1, 3000⟩
      (by norm_num [mortgage_breakdown, amortLoop,
        show Int.toNat 12 = 12 from rfl])).1,
   (claim_c2 1250 20 6 1 2000 false (by norm_num)
      ⟨[⟨0, 0, 1000, 0, 0, 0⟩], 1, 3000⟩
      (by norm_num [mortgage_breakdown, amortLoop,
        show Int.toNat 12 = 12 from rfl])).2
     rfl 1000 rfl⟩

/-! ## The house timeline (C6) -/

/-- A positive rate and a term of at least one month make the breakdown
succeed: the annuity denominator is strictly positive. -/
theorem mortgage_breakdown_isSome (price dpp rate term extra : ℚ) (ins : Bool)
    (hrate : 0 < rate) (hterm : (⌊term * 12⌋).toNat ≠ 0) :
    (mortgage_breakdown price dpp rate term extra ins).isSome = true := by
  have hr0 : 0 < rate / 12 / 100 := by positivity
  have hq1 : (1 : ℚ) < 1 + rate / 12 / 100 := by linarith
  have hden_pos : 0 < (1 + rate / 12 / 100) ^ ((⌊term * 12⌋).toNat) - 1 := by
    have := one_lt_pow₀ hq1 hterm
    linarith
  simp only [mortgage_breakdown, if_neg (ne_of_gt hden_pos), Option.isSome_some]

/-- Claim C6 (spec-modelled): the MORTGAGE branch of `house_timeline`
returns `years = round(mortgage_preparation(pp, 0.2))` and
`total_cost = round(get_total_cost(schedule) + rent * 12 * years)` over the
15-year, no-insurance, 20%-down schedule built at
`MAXIMUM_INTEREST_RATE` — and that schedule always exists. -/
theorem claim_c6 (sv : Smartvestor) (rent pp : ℚ) (fuel : ℕ) (yrs : ℚ)
    (h : mortgage_preparation sv pp (2/10) fuel = some yrs) :
    (mortgage_breakdown pp (2/10) MAXIMUM_INTEREST_RATE 15 0 false).isSome
      = true ∧
    house_timeline sv rent pp HouseStrategies.mortgage fuel
      = (mortgage_breakdown pp (2/10) MAXIMUM_INTEREST_RATE 15 0 false).map
          (fun res => (pyRound yrs,
            pyRound (get_total_cost res.rows
              + rent * 12 * (pyRound yrs : ℚ)))) := by
  constructor
  · apply mortgage_breakdown_isSome
    · norm_num [MAXIMUM_INTEREST_RATE]
    · rw [show ((15 : ℚ) * 12) = ((180 : ℕ) : ℚ) by norm_num,
        Int.floor_natCast, Int.toNat_natCast]
      omega
  · simp only [house_timeline, h, Option.some_bind]

/-- Witness for C6: a person with gross 40000 and empty savings needs 3
months (1/4 year) for the 20% down payment on a 120000 property. -/
theorem claim_c6_witness :
    (mortgage_breakdown 120000 (2/10) MAXIMUM_INTEREST_RATE 15 0 false).isSome
      = true ∧
    house_timeline ⟨⟨40000, 0, 0⟩, ⟨9651, 6434, 9651, 6434⟩, 0⟩ 15000 120000
        HouseStrategies.mortgage 10
      = (mortgage_breakdown 120000 (2/10) MAXIMUM_INTEREST_RATE 15 0 false).map
          (fun res => (pyRound (1/4),
            pyRound (get_total_cost res.rows
              + 15000 * 12 * (pyRound (1/4) : ℚ)))) :=
  claim_c6 ⟨⟨40000, 0, 0⟩, ⟨9651, 6434, 9651, 6434⟩, 0⟩ 15000 120000 10 (1/4)
    (by norm_num [mortgage_preparation, saveLoop, savingsFraction,
      FinancialPerson.net_monthly_income, FinancialPerson.net_annual_income,
      FinancialPerson.net_monthly_salary, FinancialPerson.annual_bonus])
